import Mathlib

/-!
Verification of `caffe2/operators/order_switch_ops_cudnn.cc`: the cuDNN
NHWC <-> NCHW order-switch operators (`CuDNNNHWC2NCHWOp`, `CuDNNNCHW2NHWCOp`
sharing the base `CuDNNOrderSwithOpBase`).

Modelling conventions:
* Tensor extents come from `Tensor::dim32` / `Tensor::sizes()`, which are
  nonnegative, so dimension lists are `List Nat`.  Arithmetic on extents and
  strides (products of extents) is modelled mathematically, without 32-bit
  wraparound; no claim under consideration concerns integer overflow.
* C++ out-of-bounds accesses (`std::vector` indexing / iterator ranges used
  outside the container, `back()` on an empty vector) and failed
  `CAFFE_ENFORCE` bound checks are undefined or failing behaviour; both are
  modelled as `Option.none` at the access that first goes wrong.
* A cuDNN tensor descriptor stores extents and strides; descriptors produced
  by `cudnnSetTensor4dDescriptor` record the tensor format and logical
  extents (N, C, H, W), with the strides cuDNN derives from the format.  For
  descriptors produced by `cudnnSetTensorNdDescriptor` we additionally record
  the `StorageOrder` whose stride pattern was used (the pattern is recoverable
  from the stored strides; the tag keeps the relayout model executable).
* The external transform primitive `cudnnTransformTensor` is not part of this
  repository; it is modelled from the spec as a pure strided relayout copy
  honouring the two descriptors' extents and strides.
-/

namespace Caffe2

/-- `StorageOrder` from caffe2: NCHW is "channel-second", NHWC is
"channel-last". -/
inductive StorageOrder
  | NCHW
  | NHWC
deriving DecidableEq

/-- The cuDNN data types that `cudnnTypeWrapper<T>` produces for the two
element types this operator dispatches on (`float`, `at::Half`). -/
inductive CudnnDataType
  | FLOAT
  | HALF
deriving DecidableEq

/-- Element types a caffe2 tensor can carry (the ones relevant to the
dispatch in `RunOnDevice`; `float32`/`float16` are the supported set, the
rest stand for every other `TensorTypes` member). -/
inductive ElementType
  | float32
  | float16
  | float64
  | int32
  | int64
  | uint8
deriving DecidableEq

/-- The cuDNN data type `DispatchHelper<TensorTypes<float, at::Half>>`
selects for an element type; `none` means the dispatch falls through to the
unsupported-type error. -/
def cudnnTypeOf : ElementType → Option CudnnDataType
  | .float32 => some .FLOAT
  | .float16 => some .HALF
  | _ => none

/-- An element type is supported when the dispatch finds a cuDNN type. -/
def supportedElementType (et : ElementType) : Bool :=
  (cudnnTypeOf et).isSome

/-- A cuDNN tensor descriptor.  `uninit` is the state after
`cudnnCreateTensorDescriptor` before any `Set`.  `desc4d` records a
`cudnnSetTensor4dDescriptor` call (format, data type, N, C, H, W); `descNd`
records a `cudnnSetTensorNdDescriptor` call (data type, extents, strides),
together with the `StorageOrder` whose stride pattern was written. -/
inductive TensorDescriptor
  | uninit
  | desc4d (format : StorageOrder) (dataType : CudnnDataType) (N C H W : Nat)
  | descNd (format : StorageOrder) (dataType : CudnnDataType)
      (dims : List Nat) (strides : List Nat)
deriving DecidableEq

/-- Logical extents of a set descriptor (N, C, H, W[, D]); `none` for an
unset descriptor. -/
def descExtents : TensorDescriptor → Option (List Nat)
  | .uninit => none
  | .desc4d _ _ N C H W => some [N, C, H, W]
  | .descNd _ _ dims _ => some dims

/-- Strides of a set descriptor, in logical (N, C, H, W[, D]) axis order.
For `desc4d` these are the strides cuDNN derives from the format. -/
def descStrides : TensorDescriptor → List Nat
  | .uninit => []
  | .desc4d .NCHW _ _ C H W => [C * H * W, H * W, W, 1]
  | .desc4d .NHWC _ _ C H W => [H * W * C, 1, W * C, C]
  | .descNd _ _ _ strides => strides

/-- The data-type tag a descriptor was set with. -/
def descDataType : TensorDescriptor → Option CudnnDataType
  | .uninit => none
  | .desc4d _ dt _ _ _ _ => some dt
  | .descNd _ dt _ _ => some dt

/-- Linear memory offset of a logical multi-index under a descriptor's
strides. -/
def descOffset (d : TensorDescriptor) (idx : List Nat) : Nat :=
  (List.zipWith (· * ·) idx (descStrides d)).sum

/-- Mixed-radix decoding: split a linear offset into digits for the given
radices, most significant first. -/
def mrDecode : List Nat → Nat → List Nat
  | [], _ => []
  | _ :: rs, j => (j / rs.prod) :: mrDecode rs (j % rs.prod)

/-- Mixed-radix encoding of a digit list under radices, most significant
first. -/
def mrEncode : List Nat → List Nat → Nat
  | [], _ => 0
  | _, [] => 0
  | x :: xs, _ :: rs => x * rs.prod + mrEncode xs rs

/-- Logical multi-index stored at a given linear offset of a descriptor's
buffer, in logical (N, C, H, W[, D]) order.  For a channel-last descriptor
the significance order of the axes is N, H, W[, D], C, so the mixed-radix
digits are reordered back to logical order. -/
def descDecode : TensorDescriptor → Nat → List Nat
  | .uninit, _ => []
  | .desc4d .NCHW _ N C H W, j => mrDecode [N, C, H, W] j
  | .desc4d .NHWC _ N C H W, j =>
      match mrDecode [N, H, W, C] j with
      | [n, h, w, c] => [n, c, h, w]
      | _ => []
  | .descNd .NCHW _ dims _, j =>
      match dims with
      | [N, C, H, W, D] => mrDecode [N, C, H, W, D] j
      | _ => []
  | .descNd .NHWC _ dims _, j =>
      match dims with
      | [N, C, H, W, D] =>
          match mrDecode [N, H, W, D, C] j with
          | [n, h, w, d, c] => [n, c, h, w, d]
          | _ => []
      | _ => []

/-- Modelled from the spec: the external transform primitive
(`cudnnTransformTensor`), which this repository only calls.  It is a pure
strided relayout copy: both descriptors must be set and have equal extents;
every buffer position of the destination that the descriptor maps receives
the source element with the same logical multi-index (scale 1, bias 0 — no
arithmetic).  An unset descriptor or an extent mismatch fails loudly. -/
def transformTensor {α : Type} (xd : TensorDescriptor) (x : Nat → α)
    (yd : TensorDescriptor) (y0 : Nat → α) : Option (Nat → α) :=
  match descExtents xd, descExtents yd with
  | some xe, some ye =>
      if xe = ye then
        some fun j => if j < ye.prod then x (descOffset xd (descDecode yd j)) else y0 j
      else none
  | _, _ => none

/-- A tensor: its shape (`sizes()`) and raw buffer contents. -/
structure Tensor (α : Type) where
  dims : List Nat
  data : Nat → α

/-- `Tensor::dim32(i)`: bounds-checked read of the i-th extent (the
`CAFFE_ENFORCE` fails for an index outside `[0, ndim)`). -/
def dim32 (dims : List Nat) (i : Int) : Option Nat :=
  if 0 ≤ i ∧ i < dims.length then dims[i.toNat]? else none

/-- Mutable per-operator state of `CuDNNOrderSwithOpBase`: the cached input
shape and the two descriptors. -/
structure OpState where
  cached_X_dims_ : List Nat
  X_desc_ : TensorDescriptor
  Y_desc_ : TensorDescriptor
deriving DecidableEq

/-- State of a freshly constructed operator: empty cache, descriptors
created but not set. -/
def initState : OpState := ⟨[], .uninit, .uninit⟩

/-- Failure modes of one run.  `rankError` is the spec's taxonomy entry for
a rank validation; the remaining constructors are the failures the code can
actually produce (a failing `ENFORCE`/out-of-bounds access while computing
the output shape, an out-of-bounds access inside `SetTensorDescriptor`, a
failing transform call). -/
inductive ConvErr
  | rankError
  | unsupportedTypeError
  | shapeError
  | descriptorError
  | transformError
deriving DecidableEq

/-- Outcome of one operator run: the error if any, the operator state after
the run, and the output tensor as left by the run (resized even when a later
step fails). -/
structure ConvOutcome (α : Type) where
  err : Option ConvErr
  state : OpState
  Y : Tensor α

/-- `CuDNNOrderSwithOpBase::SetTensorDescriptor`.  `data_dims[1]`/`[2]`/`[3]`
and `back()` are modelled with `Option`-valued access (for every rank ≥ 3
they are in bounds; for rank < 3 the `else` branch of the rank dispatch
reads out of bounds and the model fails there).  `std::accumulate` over
`multiplies<int>` is the left fold with initial value 1. -/
def setTensorDescriptor (data_type : CudnnDataType) (order : StorageOrder)
    (data_dims : List Nat) : Option TensorDescriptor :=
  let ndim := data_dims.length
  match data_dims[0]? with
  | none => none
  | some N =>
  match (if order = .NCHW then data_dims[1]? else data_dims.getLast?) with
  | none => none
  | some C =>
  if ndim = 3 then
    match (if order = .NCHW then data_dims[2]? else data_dims[1]?) with
    | none => none
    | some W => some (.desc4d order data_type N C 1 W)
  else if ndim = 4 then
    match (if order = .NCHW then data_dims[2]? else data_dims[1]?),
        (if order = .NCHW then data_dims[3]? else data_dims[2]?) with
    | some H, some W => some (.desc4d order data_type N C H W)
    | _, _ => none
  else
    match (if order = .NCHW then data_dims[2]? else data_dims[1]?),
        (if order = .NCHW then data_dims[3]? else data_dims[2]?) with
    | some H, some W =>
        let spatial := if order = .NCHW then data_dims.drop 4
                       else (data_dims.drop 3).dropLast
        let D := spatial.foldl (· * ·) 1
        some (.descNd order data_type [N, C, H, W, D]
          (if order = .NCHW then [C * H * W * D, H * W * D, W * D, D, 1]
           else [C * H * W * D, 1, W * D * C, D * C, C]))
    | _, _ => none

/-- Construction of `Y_dims` in `CuDNNNHWC2NCHWOp::DoRunWithType`:
a vector of size `ndim` with `Y_dims[0] = N`, `Y_dims[1] = C` and
`X_dims[1 .. ndim-1)` copied starting at position 2.  The writes (and the
copy's iterator range) are in bounds only for `ndim ≥ 2`. -/
def buildYDimsNHWC2NCHW (N C : Nat) (X_dims : List Nat) : Option (List Nat) :=
  if 2 ≤ X_dims.length then some (N :: C :: (X_dims.drop 1).dropLast) else none

/-- Construction of `Y_dims` in `CuDNNNCHW2NHWCOp::DoRunWithType`:
a vector of size `ndim` with `Y_dims[0] = N`, `Y_dims[ndim-1] = C` and
`X_dims[2 .. ndim)` copied starting at position 1. -/
def buildYDimsNCHW2NHWC (N C : Nat) (X_dims : List Nat) : Option (List Nat) :=
  if 2 ≤ X_dims.length then some (N :: (X_dims.drop 2 ++ [C])) else none

/-- Output shape of `CuDNNNHWC2NCHWOp`: `N = dim32(0)`, `C = dim32(ndim-1)`,
then `Y_dims` as built above. -/
def computeOutputShapeNHWC2NCHW (X_dims : List Nat) : Option (List Nat) :=
  match dim32 X_dims 0, dim32 X_dims ((X_dims.length : Int) - 1) with
  | some N, some C => buildYDimsNHWC2NCHW N C X_dims
  | _, _ => none

/-- Output shape of `CuDNNNCHW2NHWCOp`: `N = dim32(0)`, `C = dim32(1)`,
then `Y_dims` as built above. -/
def computeOutputShapeNCHW2NHWC (X_dims : List Nat) : Option (List Nat) :=
  match dim32 X_dims 0, dim32 X_dims 1 with
  | some N, some C => buildYDimsNCHW2NHWC N C X_dims
  | _, _ => none

/-- `CuDNNNHWC2NCHWOp::DoRunWithType` (already dispatched to a cuDNN data
type `dt`): compute `Y_dims`, resize the output, and on a cache miss store
the input shape and set both descriptors (source as NHWC over `X_dims`,
destination as NCHW over `Y_dims`) before invoking the transform. -/
def doRunNHWC2NCHW {α : Type} (dt : CudnnDataType) (s : OpState)
    (X Y : Tensor α) : ConvOutcome α :=
  match computeOutputShapeNHWC2NCHW X.dims with
  | none => ⟨some .shapeError, s, Y⟩
  | some Y_dims =>
    let Y1 : Tensor α := ⟨Y_dims, Y.data⟩
    if s.cached_X_dims_ = X.dims then
      match transformTensor s.X_desc_ X.data s.Y_desc_ Y1.data with
      | none => ⟨some .transformError, s, Y1⟩
      | some d => ⟨none, s, ⟨Y_dims, d⟩⟩
    else
      match setTensorDescriptor dt .NHWC X.dims with
      | none => ⟨some .descriptorError, ⟨X.dims, s.X_desc_, s.Y_desc_⟩, Y1⟩
      | some xd =>
        match setTensorDescriptor dt .NCHW Y_dims with
        | none => ⟨some .descriptorError, ⟨X.dims, xd, s.Y_desc_⟩, Y1⟩
        | some yd =>
          match transformTensor xd X.data yd Y1.data with
          | none => ⟨some .transformError, ⟨X.dims, xd, yd⟩, Y1⟩
          | some d => ⟨none, ⟨X.dims, xd, yd⟩, ⟨Y_dims, d⟩⟩

/-- `CuDNNNCHW2NHWCOp::DoRunWithType`: same structure with the opposite
direction (source as NCHW over `X_dims`, destination as NHWC over
`Y_dims`). -/
def doRunNCHW2NHWC {α : Type} (dt : CudnnDataType) (s : OpState)
    (X Y : Tensor α) : ConvOutcome α :=
  match computeOutputShapeNCHW2NHWC X.dims with
  | none => ⟨some .shapeError, s, Y⟩
  | some Y_dims =>
    let Y1 : Tensor α := ⟨Y_dims, Y.data⟩
    if s.cached_X_dims_ = X.dims then
      match transformTensor s.X_desc_ X.data s.Y_desc_ Y1.data with
      | none => ⟨some .transformError, s, Y1⟩
      | some d => ⟨none, s, ⟨Y_dims, d⟩⟩
    else
      match setTensorDescriptor dt .NCHW X.dims with
      | none => ⟨some .descriptorError, ⟨X.dims, s.X_desc_, s.Y_desc_⟩, Y1⟩
      | some xd =>
        match setTensorDescriptor dt .NHWC Y_dims with
        | none => ⟨some .descriptorError, ⟨X.dims, xd, s.Y_desc_⟩, Y1⟩
        | some yd =>
          match transformTensor xd X.data yd Y1.data with
          | none => ⟨some .transformError, ⟨X.dims, xd, yd⟩, Y1⟩
          | some d => ⟨none, ⟨X.dims, xd, yd⟩, ⟨Y_dims, d⟩⟩

/-- `CuDNNNHWC2NCHWOp::RunOnDevice`: dispatch on the element type over
`TensorTypes<float, at::Half>`; anything else is the unsupported-type
failure. -/
def runNHWC2NCHW {α : Type} (et : ElementType) (s : OpState)
    (X Y : Tensor α) : ConvOutcome α :=
  match cudnnTypeOf et with
  | some dt => doRunNHWC2NCHW dt s X Y
  | none => ⟨some .unsupportedTypeError, s, Y⟩

/-- `CuDNNNCHW2NHWCOp::RunOnDevice`. -/
def runNCHW2NHWC {α : Type} (et : ElementType) (s : OpState)
    (X Y : Tensor α) : ConvOutcome α :=
  match cudnnTypeOf et with
  | some dt => doRunNCHW2NHWC dt s X Y
  | none => ⟨some .unsupportedTypeError, s, Y⟩

/-! ### Mixed-radix encode/decode facts -/

theorem mrEncode_lt {xs rs : List Nat} (h : List.Forall₂ (· < ·) xs rs) :
    mrEncode xs rs < rs.prod := by
  induction h with
  | nil => simp [mrEncode]
  | @cons x r xs' rs' hxr hrest ih =>
    simp only [mrEncode, List.prod_cons]
    have h1 : x * rs'.prod + mrEncode xs' rs' < (x + 1) * rs'.prod := by
      have := ih
      nlinarith
    have h2 : (x + 1) * rs'.prod ≤ r * rs'.prod := Nat.mul_le_mul_right _ hxr
    omega

theorem mrDecode_mrEncode {xs rs : List Nat} (h : List.Forall₂ (· < ·) xs rs) :
    mrDecode rs (mrEncode xs rs) = xs := by
  induction h with
  | nil => simp [mrDecode, mrEncode]
  | @cons x r xs' rs' hxr hrest ih =>
    have he : mrEncode xs' rs' < rs'.prod := mrEncode_lt hrest
    have hP : 0 < rs'.prod := Nat.lt_of_le_of_lt (Nat.zero_le _) he
    have h1 : (x * rs'.prod + mrEncode xs' rs') / rs'.prod = x := by
      rw [mul_comm, Nat.mul_add_div hP, Nat.div_eq_of_lt he]
      omega
    have h2 : (x * rs'.prod + mrEncode xs' rs') % rs'.prod = mrEncode xs' rs' := by
      rw [mul_comm, Nat.mul_add_mod, Nat.mod_eq_of_lt he]
    simp only [mrEncode, mrDecode, h1, h2, ih]

theorem mrEncode_mrDecode : ∀ (rs : List Nat) (j : Nat), j < rs.prod →
    mrEncode (mrDecode rs j) rs = j ∧ List.Forall₂ (· < ·) (mrDecode rs j) rs := by
  intro rs
  induction rs with
  | nil =>
    intro j hj
    simp only [List.prod_nil, Nat.lt_one_iff] at hj
    subst hj
    simp [mrDecode, mrEncode]
  | cons r rs ih =>
    intro j hj
    simp only [List.prod_cons] at hj
    have hP : 0 < rs.prod := by
      rcases Nat.eq_zero_or_pos rs.prod with h0 | h
      · rw [h0, Nat.mul_zero] at hj
        exact absurd hj (Nat.not_lt_zero _)
      · exact h
    have hdiv : j / rs.prod < r := by
      rw [Nat.div_lt_iff_lt_mul hP]
      omega
    have hmod : j % rs.prod < rs.prod := Nat.mod_lt _ hP
    obtain ⟨he, hf⟩ := ih (j % rs.prod) hmod
    refine ⟨?_, List.Forall₂.cons hdiv hf⟩
    simp only [mrDecode, mrEncode, he]
    rw [mul_comm]
    exact Nat.div_add_mod j rs.prod

theorem forall2_lt_four {L : List Nat} {A B C D : Nat}
    (h : List.Forall₂ (· < ·) L [A, B, C, D]) :
    ∃ a b c d, L = [a, b, c, d] ∧ a < A ∧ b < B ∧ c < C ∧ d < D := by
  obtain ⟨a, L1, ha, h1, rfl⟩ := List.forall₂_cons_right_iff.mp h
  obtain ⟨b, L2, hb, h2, rfl⟩ := List.forall₂_cons_right_iff.mp h1
  obtain ⟨c, L3, hc, h3, rfl⟩ := List.forall₂_cons_right_iff.mp h2
  obtain ⟨d, L4, hd, h4, rfl⟩ := List.forall₂_cons_right_iff.mp h3
  rw [List.forall₂_nil_right_iff] at h4
  exact ⟨a, b, c, d, by rw [h4], ha, hb, hc, hd⟩

theorem forall2_lt_five {L : List Nat} {A B C D E : Nat}
    (h : List.Forall₂ (· < ·) L [A, B, C, D, E]) :
    ∃ a b c d e, L = [a, b, c, d, e] ∧ a < A ∧ b < B ∧ c < C ∧ d < D ∧ e < E := by
  obtain ⟨a, L1, ha, h1, rfl⟩ := List.forall₂_cons_right_iff.mp h
  obtain ⟨b, c, d, e, hL, hb, hc, hd, he⟩ := forall2_lt_four h1
  exact ⟨a, b, c, d, e, by rw [hL], ha, hb, hc, hd, he⟩

theorem transformTensor_eq {α : Type} (xd yd : TensorDescriptor) {x y0 : Nat → α}
    (xe ye : List Nat) (hx : descExtents xd = some xe) (hyd : descExtents yd = some ye)
    (hxy : xe = ye) :
    transformTensor xd x yd y0 =
      some fun j => if j < ye.prod then x (descOffset xd (descDecode yd j)) else y0 j := by
  simp [transformTensor, hx, hyd, hxy]

/-- Relayout through a channel-last source descriptor into a channel-second
destination descriptor and back is the identity on the first
`N * C * H * W` buffer positions (the 4-axis round trip at the descriptor
level). -/
theorem roundtrip_core4 {α : Type} (dtx dty : CudnnDataType) (N C H W : Nat)
    (x y0 z0 y z : Nat → α)
    (hy : transformTensor (.desc4d .NHWC dtx N C H W) x (.desc4d .NCHW dty N C H W) y0
          = some y)
    (hz : transformTensor (.desc4d .NCHW dty N C H W) y (.desc4d .NHWC dtx N C H W) z0
          = some z) :
    ∀ j, j < N * C * H * W → z j = x j := by
  rw [transformTensor_eq (.desc4d .NHWC dtx N C H W) (.desc4d .NCHW dty N C H W)
      [N, C, H, W] [N, C, H, W] rfl rfl rfl] at hy
  rw [transformTensor_eq (.desc4d .NCHW dty N C H W) (.desc4d .NHWC dtx N C H W)
      [N, C, H, W] [N, C, H, W] rfl rfl rfl] at hz
  obtain rfl := (Option.some.inj hy).symm
  obtain rfl := (Option.some.inj hz).symm
  intro j hj
  have hprodNCHW : ([N, C, H, W] : List Nat).prod = N * C * H * W := by
    simp only [List.prod_cons, List.prod_nil]
    ring
  have hj' : j < ([N, H, W, C] : List Nat).prod := by
    have h1 : ([N, H, W, C] : List Nat).prod = N * C * H * W := by
      simp only [List.prod_cons, List.prod_nil]
      ring
    rw [h1]
    exact hj
  obtain ⟨henc, hfa⟩ := mrEncode_mrDecode [N, H, W, C] j hj'
  obtain ⟨n, h, w, c, hL, hn, hh, hw, hc⟩ := forall2_lt_four hfa
  have hdec : descDecode (.desc4d .NHWC dtx N C H W) j = [n, c, h, w] := by
    simp only [descDecode, hL]
  have hfa2 : List.Forall₂ (· < ·) [n, c, h, w] [N, C, H, W] :=
    List.Forall₂.cons hn (List.Forall₂.cons hc
      (List.Forall₂.cons hh (List.Forall₂.cons hw List.Forall₂.nil)))
  have ho : descOffset (.desc4d .NCHW dty N C H W) [n, c, h, w]
      = mrEncode [n, c, h, w] [N, C, H, W] := by
    simp only [descOffset, descStrides, mrEncode, List.zipWith, List.sum_cons,
      List.sum_nil, List.prod_cons, List.prod_nil]
    ring
  have holt : descOffset (.desc4d .NCHW dty N C H W) [n, c, h, w]
      < ([N, C, H, W] : List Nat).prod := by
    rw [ho]
    exact mrEncode_lt hfa2
  have hdec2 : descDecode (.desc4d .NCHW dty N C H W)
      (descOffset (.desc4d .NCHW dty N C H W) [n, c, h, w]) = [n, c, h, w] := by
    rw [ho]
    simpa only [descDecode] using mrDecode_mrEncode hfa2
  have hoff : descOffset (.desc4d .NHWC dtx N C H W) [n, c, h, w] = j := by
    have h1 : descOffset (.desc4d .NHWC dtx N C H W) [n, c, h, w]
        = mrEncode [n, h, w, c] [N, H, W, C] := by
      simp only [descOffset, descStrides, mrEncode, List.zipWith, List.sum_cons,
        List.sum_nil, List.prod_cons, List.prod_nil]
      ring
    rw [h1, ← hL, henc]
  show (if j < ([N, C, H, W] : List Nat).prod then _ else z0 j) = x j
  rw [if_pos (by rw [hprodNCHW]; exact hj), hdec]
  beta_reduce
  rw [if_pos holt, hdec2, hoff]

/-- The 5-axis round trip at the descriptor level, with the stride patterns
`SetTensorDescriptor` writes for rank ≥ 5. -/
theorem roundtrip_core5 {α : Type} (dtx dty : CudnnDataType) (N C H W D : Nat)
    (x y0 z0 y z : Nat → α)
    (hy : transformTensor
            (.descNd .NHWC dtx [N, C, H, W, D] [C * H * W * D, 1, W * D * C, D * C, C]) x
            (.descNd .NCHW dty [N, C, H, W, D] [C * H * W * D, H * W * D, W * D, D, 1]) y0
          = some y)
    (hz : transformTensor
            (.descNd .NCHW dty [N, C, H, W, D] [C * H * W * D, H * W * D, W * D, D, 1]) y
            (.descNd .NHWC dtx [N, C, H, W, D] [C * H * W * D, 1, W * D * C, D * C, C]) z0
          = some z) :
    ∀ j, j < N * C * H * W * D → z j = x j := by
  rw [transformTensor_eq
      (.descNd .NHWC dtx [N, C, H, W, D] [C * H * W * D, 1, W * D * C, D * C, C])
      (.descNd .NCHW dty [N, C, H, W, D] [C * H * W * D, H * W * D, W * D, D, 1])
      [N, C, H, W, D] [N, C, H, W, D] rfl rfl rfl] at hy
  rw [transformTensor_eq
      (.descNd .NCHW dty [N, C, H, W, D] [C * H * W * D, H * W * D, W * D, D, 1])
      (.descNd .NHWC dtx [N, C, H, W, D] [C * H * W * D, 1, W * D * C, D * C, C])
      [N, C, H, W, D] [N, C, H, W, D] rfl rfl rfl] at hz
  obtain rfl := (Option.some.inj hy).symm
  obtain rfl := (Option.some.inj hz).symm
  intro j hj
  have hprodNCHW : ([N, C, H, W, D] : List Nat).prod = N * C * H * W * D := by
    simp only [List.prod_cons, List.prod_nil]
    ring
  have hj' : j < ([N, H, W, D, C] : List Nat).prod := by
    have h1 : ([N, H, W, D, C] : List Nat).prod = N * C * H * W * D := by
      simp only [List.prod_cons, List.prod_nil]
      ring
    rw [h1]
    exact hj
  obtain ⟨henc, hfa⟩ := mrEncode_mrDecode [N, H, W, D, C] j hj'
  obtain ⟨n, h, w, d, c, hL, hn, hh, hw, hd, hc⟩ := forall2_lt_five hfa
  have hdec : descDecode
      (.descNd .NHWC dtx [N, C, H, W, D] [C * H * W * D, 1, W * D * C, D * C, C]) j
      = [n, c, h, w, d] := by
    simp only [descDecode, hL]
  have hfa2 : List.Forall₂ (· < ·) [n, c, h, w, d] [N, C, H, W, D] :=
    List.Forall₂.cons hn (List.Forall₂.cons hc (List.Forall₂.cons hh
      (List.Forall₂.cons hw (List.Forall₂.cons hd List.Forall₂.nil))))
  have ho : descOffset
      (.descNd .NCHW dty [N, C, H, W, D] [C * H * W * D, H * W * D, W * D, D, 1])
      [n, c, h, w, d] = mrEncode [n, c, h, w, d] [N, C, H, W, D] := by
    simp only [descOffset, descStrides, mrEncode, List.zipWith, List.sum_cons,
      List.sum_nil, List.prod_cons, List.prod_nil]
    ring
  have holt : descOffset
      (.descNd .NCHW dty [N, C, H, W, D] [C * H * W * D, H * W * D, W * D, D, 1])
      [n, c, h, w, d] < ([N, C, H, W, D] : List Nat).prod := by
    rw [ho]
    exact mrEncode_lt hfa2
  have hdec2 : descDecode
      (.descNd .NCHW dty [N, C, H, W, D] [C * H * W * D, H * W * D, W * D, D, 1])
      (descOffset
        (.descNd .NCHW dty [N, C, H, W, D] [C * H * W * D, H * W * D, W * D, D, 1])
        [n, c, h, w, d]) = [n, c, h, w, d] := by
    rw [ho]
    simpa only [descDecode] using mrDecode_mrEncode hfa2
  have hoff : descOffset
      (.descNd .NHWC dtx [N, C, H, W, D] [C * H * W * D, 1, W * D * C, D * C, C])
      [n, c, h, w, d] = j := by
    have h1 : descOffset
        (.descNd .NHWC dtx [N, C, H, W, D] [C * H * W * D, 1, W * D * C, D * C, C])
        [n, c, h, w, d] = mrEncode [n, h, w, d, c] [N, H, W, D, C] := by
      simp only [descOffset, descStrides, mrEncode, List.zipWith, List.sum_cons,
        List.sum_nil, List.prod_cons, List.prod_nil]
      ring
    rw [h1, ← hL, henc]
  show (if j < ([N, C, H, W, D] : List Nat).prod then _ else z0 j) = x j
  rw [if_pos (by rw [hprodNCHW]; exact hj), hdec]
  beta_reduce
  rw [if_pos holt, hdec2, hoff]

/-! ### Computation lemmas for the embedded operator pieces -/

theorem dim32_zero (a : Nat) (t : List Nat) : dim32 (a :: t) 0 = some a := by
  simp [dim32]

theorem comp1_concat (a cl : Nat) (m : List Nat) :
    computeOutputShapeNHWC2NCHW (a :: (m ++ [cl])) = some (a :: cl :: m) := by
  have h2 : dim32 (a :: (m ++ [cl])) (((a :: (m ++ [cl])).length : Int) - 1) = some cl := by
    unfold dim32
    rw [if_pos]
    · have hl : (((a :: (m ++ [cl])).length : Int) - 1).toNat = m.length + 1 := by
        simp
      rw [hl]
      simp
    · constructor
      · simp
        omega
      · simp
  unfold computeOutputShapeNHWC2NCHW
  simp only [dim32_zero, h2]
  unfold buildYDimsNHWC2NCHW
  rw [if_pos]
  · simp
  · simp

theorem comp2_cons (a b : Nat) (u : List Nat) :
    computeOutputShapeNCHW2NHWC (a :: b :: u) = some (a :: (u ++ [b])) := by
  have h2 : dim32 (a :: b :: u) 1 = some b := by
    unfold dim32
    rw [if_pos]
    · simp
    · constructor
      · omega
      · simp
  unfold computeOutputShapeNCHW2NHWC
  simp only [dim32_zero, h2]
  unfold buildYDimsNCHW2NHWC
  rw [if_pos]
  · simp
  · simp

theorem setDesc_rank3_NCHW (dt : CudnnDataType) (a b c : Nat) :
    setTensorDescriptor dt .NCHW [a, b, c] = some (.desc4d .NCHW dt a b 1 c) := rfl

theorem setDesc_rank3_NHWC (dt : CudnnDataType) (a b c : Nat) :
    setTensorDescriptor dt .NHWC [a, b, c] = some (.desc4d .NHWC dt a c 1 b) := rfl

theorem setDesc_rank4_NCHW (dt : CudnnDataType) (a b c d : Nat) :
    setTensorDescriptor dt .NCHW [a, b, c, d] = some (.desc4d .NCHW dt a b c d) := rfl

theorem setDesc_rank4_NHWC (dt : CudnnDataType) (a b c d : Nat) :
    setTensorDescriptor dt .NHWC [a, b, c, d] = some (.desc4d .NHWC dt a d b c) := rfl

theorem setDesc_rank5plus_NCHW (dt : CudnnDataType) (a b c d e : Nat) (r' : List Nat) :
    setTensorDescriptor dt .NCHW (a :: b :: c :: d :: e :: r') =
      some (.descNd .NCHW dt [a, b, c, d, (e :: r').foldl (· * ·) 1]
        [b * c * d * ((e :: r').foldl (· * ·) 1), c * d * ((e :: r').foldl (· * ·) 1),
         d * ((e :: r').foldl (· * ·) 1), (e :: r').foldl (· * ·) 1, 1]) := by
  simp [setTensorDescriptor]

theorem setDesc_rank5plus_NHWC (dt : CudnnDataType) (a b c e f : Nat) (m' : List Nat) :
    setTensorDescriptor dt .NHWC (a :: b :: c :: ((f :: m') ++ [e])) =
      some (.descNd .NHWC dt [a, e, b, c, (f :: m').foldl (· * ·) 1]
        [e * b * c * ((f :: m').foldl (· * ·) 1), 1, c * ((f :: m').foldl (· * ·) 1) * e,
         ((f :: m').foldl (· * ·) 1) * e, e]) := by
  simp [setTensorDescriptor]
  rw [show f :: (m' ++ [e]) = (f :: m') ++ [e] from rfl, List.getLast?_concat,
    List.dropLast_concat]
  simp

/-- One cache-miss run of the NHWC→NCHW operator, given the values of all
intermediate steps. -/
theorem doRun1_miss {α : Type} (dt : CudnnDataType) (s : OpState) (X Y : Tensor α)
    (Y_dims : List Nat) (xd yd : TensorDescriptor) (f : Nat → α)
    (hmiss : s.cached_X_dims_ ≠ X.dims)
    (hcomp : computeOutputShapeNHWC2NCHW X.dims = some Y_dims)
    (hxd : setTensorDescriptor dt .NHWC X.dims = some xd)
    (hyd : setTensorDescriptor dt .NCHW Y_dims = some yd)
    (htr : transformTensor xd X.data yd Y.data = some f) :
    doRunNHWC2NCHW dt s X Y = ⟨none, ⟨X.dims, xd, yd⟩, ⟨Y_dims, f⟩⟩ := by
  unfold doRunNHWC2NCHW
  rw [hcomp]
  dsimp only
  rw [if_neg hmiss, hxd]
  dsimp only
  rw [hyd]
  dsimp only
  rw [htr]

/-- One cache-miss run of the NCHW→NHWC operator, given the values of all
intermediate steps. -/
theorem doRun2_miss {α : Type} (dt : CudnnDataType) (s : OpState) (X Y : Tensor α)
    (Y_dims : List Nat) (xd yd : TensorDescriptor) (f : Nat → α)
    (hmiss : s.cached_X_dims_ ≠ X.dims)
    (hcomp : computeOutputShapeNCHW2NHWC X.dims = some Y_dims)
    (hxd : setTensorDescriptor dt .NCHW X.dims = some xd)
    (hyd : setTensorDescriptor dt .NHWC Y_dims = some yd)
    (htr : transformTensor xd X.data yd Y.data = some f) :
    doRunNCHW2NHWC dt s X Y = ⟨none, ⟨X.dims, xd, yd⟩, ⟨Y_dims, f⟩⟩ := by
  unfold doRunNCHW2NHWC
  rw [hcomp]
  dsimp only
  rw [if_neg hmiss, hxd]
  dsimp only
  rw [hyd]
  dsimp only
  rw [htr]

/-- Two fresh-instance runs in sequence (NHWC→NCHW then NCHW→NHWC), given
matching descriptors and a round-trip property of the two transforms:
both succeed, the final shape is the original, and the first `P` buffer
positions return to their original values. -/
theorem run_run_roundtrip {α : Type} (dt : CudnnDataType) (X Y0 Z0 : Tensor α)
    (Ydims : List Nat) (xd yd : TensorDescriptor) (xe : List Nat) (P : Nat)
    (hxe : descExtents xd = some xe) (hye : descExtents yd = some xe)
    (hcomp1 : computeOutputShapeNHWC2NCHW X.dims = some Ydims)
    (hcomp2 : computeOutputShapeNCHW2NHWC Ydims = some X.dims)
    (hxd : setTensorDescriptor dt .NHWC X.dims = some xd)
    (hyd : setTensorDescriptor dt .NCHW Ydims = some yd)
    (hX : X.dims ≠ []) (hY : Ydims ≠ [])
    (hcore : ∀ (y z : Nat → α),
        transformTensor xd X.data yd Y0.data = some y →
        transformTensor yd y xd Z0.data = some z →
        ∀ j, j < P → z j = X.data j) :
    (doRunNHWC2NCHW dt initState X Y0).err = none ∧
    (doRunNCHW2NHWC dt initState (doRunNHWC2NCHW dt initState X Y0).Y Z0).err = none ∧
    (doRunNCHW2NHWC dt initState (doRunNHWC2NCHW dt initState X Y0).Y Z0).Y.dims
      = X.dims ∧
    ∀ j, j < P →
      (doRunNCHW2NHWC dt initState (doRunNHWC2NCHW dt initState X Y0).Y Z0).Y.data j
        = X.data j := by
  obtain ⟨f, hf⟩ : ∃ f, transformTensor xd X.data yd Y0.data = some f :=
    ⟨_, transformTensor_eq xd yd xe xe hxe hye rfl⟩
  have h1 : doRunNHWC2NCHW dt initState X Y0 = ⟨none, ⟨X.dims, xd, yd⟩, ⟨Ydims, f⟩⟩ :=
    doRun1_miss dt initState X Y0 Ydims xd yd f (fun h => hX h.symm) hcomp1 hxd hyd hf
  obtain ⟨g, hg⟩ : ∃ g, transformTensor yd f xd Z0.data = some g :=
    ⟨_, transformTensor_eq yd xd xe xe hye hxe rfl⟩
  have h2 : doRunNCHW2NHWC dt initState (⟨Ydims, f⟩ : Tensor α) Z0
      = ⟨none, ⟨Ydims, yd, xd⟩, ⟨X.dims, g⟩⟩ :=
    doRun2_miss dt initState ⟨Ydims, f⟩ Z0 X.dims yd xd g (fun h => hY h.symm)
      hcomp2 hyd hxd hg
  rw [h1]
  dsimp only
  rw [h2]
  exact ⟨rfl, rfl, rfl, fun j hj => hcore f g hf hg j hj⟩

/-- Claim C8: for every input of rank ≥ 3 with a supported element type,
converting ChannelLast→ChannelSecond and then converting the result
ChannelSecond→ChannelLast (each on a fresh executor instance) reproduces the
original tensor: both runs succeed, the final shape equals the original, and
element for element the values are unchanged, with the transform modelled as
a pure strided relayout copy. -/
theorem claim_C8 {α : Type} (et : ElementType) (het : supportedElementType et = true)
    (X Y0 Z0 : Tensor α) (h3 : 3 ≤ X.dims.length) :
    (runNHWC2NCHW et initState X Y0).err = none ∧
    (runNCHW2NHWC et initState (runNHWC2NCHW et initState X Y0).Y Z0).err = none ∧
    (runNCHW2NHWC et initState (runNHWC2NCHW et initState X Y0).Y Z0).Y.dims = X.dims ∧
    ∀ j, j < X.dims.prod →
      (runNCHW2NHWC et initState (runNHWC2NCHW et initState X Y0).Y Z0).Y.data j
        = X.data j := by
  obtain ⟨dt, hdt⟩ := Option.isSome_iff_exists.mp het
  simp only [runNHWC2NCHW, runNCHW2NHWC, hdt]
  obtain ⟨Xdims, xdata⟩ := X
  dsimp only at h3 ⊢
  rcases Xdims with _ | ⟨a, _ | ⟨b, _ | ⟨c, rest⟩⟩⟩
  · simp at h3
  · simp at h3
  · simp at h3
  rcases List.eq_nil_or_concat rest with rfl | ⟨m, cl, rfl⟩
  · -- rank 3, dims [a, b, c]
    exact run_run_roundtrip dt ⟨[a, b, c], xdata⟩ Y0 Z0 [a, c, b]
      (.desc4d .NHWC dt a c 1 b) (.desc4d .NCHW dt a c 1 b) [a, c, 1, b]
      (([a, b, c] : List Nat).prod) rfl rfl
      (comp1_concat a c [b]) (comp2_cons a c [b])
      (setDesc_rank3_NHWC dt a b c) (setDesc_rank3_NCHW dt a c b)
      (by simp) (by simp)
      (fun y z hy hz j hj =>
        roundtrip_core4 dt dt a c 1 b xdata Y0.data Z0.data y z hy hz j
          (by
            have hp : ([a, b, c] : List Nat).prod = a * c * 1 * b := by
              simp only [List.prod_cons, List.prod_nil]
              ring
            rw [← hp]
            exact hj))
  simp only [List.concat_eq_append] at h3 ⊢
  rcases m with _ | ⟨f, m'⟩
  · -- rank 4, dims [a, b, c, cl]
    simp only [List.nil_append] at h3 ⊢
    exact run_run_roundtrip dt ⟨[a, b, c, cl], xdata⟩ Y0 Z0 [a, cl, b, c]
      (.desc4d .NHWC dt a cl b c) (.desc4d .NCHW dt a cl b c) [a, cl, b, c]
      (([a, b, c, cl] : List Nat).prod) rfl rfl
      (comp1_concat a cl [b, c]) (comp2_cons a cl [b, c])
      (setDesc_rank4_NHWC dt a b c cl) (setDesc_rank4_NCHW dt a cl b c)
      (by simp) (by simp)
      (fun y z hy hz j hj =>
        roundtrip_core4 dt dt a cl b c xdata Y0.data Z0.data y z hy hz j
          (by
            have hp : ([a, b, c, cl] : List Nat).prod = a * cl * b * c := by
              simp only [List.prod_cons, List.prod_nil]
              ring
            rw [← hp]
            exact hj))
  · -- rank ≥ 5, dims a :: b :: c :: ((f :: m') ++ [cl])
    exact run_run_roundtrip dt ⟨a :: b :: c :: ((f :: m') ++ [cl]), xdata⟩ Y0 Z0
      (a :: cl :: b :: c :: f :: m')
      (.descNd .NHWC dt [a, cl, b, c, (f :: m').foldl (· * ·) 1]
        [cl * b * c * ((f :: m').foldl (· * ·) 1), 1,
         c * ((f :: m').foldl (· * ·) 1) * cl, ((f :: m').foldl (· * ·) 1) * cl, cl])
      (.descNd .NCHW dt [a, cl, b, c, (f :: m').foldl (· * ·) 1]
        [cl * b * c * ((f :: m').foldl (· * ·) 1), b * c * ((f :: m').foldl (· * ·) 1),
         c * ((f :: m').foldl (· * ·) 1), (f :: m').foldl (· * ·) 1, 1])
      [a, cl, b, c, (f :: m').foldl (· * ·) 1]
      ((a :: b :: c :: ((f :: m') ++ [cl])).prod) rfl rfl
      (comp1_concat a cl (b :: c :: f :: m')) (comp2_cons a cl (b :: c :: f :: m'))
      (setDesc_rank5plus_NHWC dt a b c cl f m') (setDesc_rank5plus_NCHW dt a cl b c f m')
      (by simp) (by simp)
      (fun y z hy hz j hj =>
        roundtrip_core5 dt dt a cl b c ((f :: m').foldl (· * ·) 1)
          xdata Y0.data Z0.data y z hy hz j
          (by
            have hp : (a :: b :: c :: ((f :: m') ++ [cl])).prod
                = a * cl * b * c * ((f :: m').foldl (· * ·) 1) := by
              rw [← List.prod_eq_foldl]
              simp only [List.prod_cons, List.prod_append, List.prod_nil]
              ring
            rw [← hp]
            exact hj))

/-- Witness for C8 at the concrete input shape [2, 3, 4]. -/
theorem claim_C8_witness :
    (runNHWC2NCHW .float32 initState (⟨[2, 3, 4], fun j => j⟩ : Tensor Nat)
        ⟨[], fun _ => 0⟩).err = none ∧
    (runNCHW2NHWC .float32 initState
        (runNHWC2NCHW .float32 initState (⟨[2, 3, 4], fun j => j⟩ : Tensor Nat)
          ⟨[], fun _ => 0⟩).Y ⟨[], fun _ => 0⟩).err = none ∧
    (runNCHW2NHWC .float32 initState
        (runNHWC2NCHW .float32 initState (⟨[2, 3, 4], fun j => j⟩ : Tensor Nat)
          ⟨[], fun _ => 0⟩).Y ⟨[], fun _ => 0⟩).Y.dims
      = (⟨[2, 3, 4], fun j => j⟩ : Tensor Nat).dims ∧
    ∀ j, j < (⟨[2, 3, 4], fun j => j⟩ : Tensor Nat).dims.prod →
      (runNCHW2NHWC .float32 initState
          (runNHWC2NCHW .float32 initState (⟨[2, 3, 4], fun j => j⟩ : Tensor Nat)
            ⟨[], fun _ => 0⟩).Y ⟨[], fun _ => 0⟩).Y.data j
        = (⟨[2, 3, 4], fun j => j⟩ : Tensor Nat).data j :=
  claim_C8 .float32 rfl ⟨[2, 3, 4], fun j => j⟩ ⟨[], fun _ => 0⟩ ⟨[], fun _ => 0⟩
    (by decide)

theorem doRun1_state_hit {α : Type} (dt : CudnnDataType) (s : OpState) (X Y : Tensor α)
    (h : s.cached_X_dims_ = X.dims) : (doRunNHWC2NCHW dt s X Y).state = s := by
  unfold doRunNHWC2NCHW
  split
  · rfl
  · rw [if_pos h]
    split
    · rfl
    · rfl

theorem doRun2_state_hit {α : Type} (dt : CudnnDataType) (s : OpState) (X Y : Tensor α)
    (h : s.cached_X_dims_ = X.dims) : (doRunNCHW2NHWC dt s X Y).state = s := by
  unfold doRunNCHW2NHWC
  split
  · rfl
  · rw [if_pos h]
    split
    · rfl
    · rfl

theorem doRun1_state_after {α : Type} (dt : CudnnDataType) (s : OpState) (X Y : Tensor α) :
    (doRunNHWC2NCHW dt s X Y).state.cached_X_dims_ = X.dims
    ∨ ((doRunNHWC2NCHW dt s X Y).state = s
        ∧ computeOutputShapeNHWC2NCHW X.dims = none) := by
  unfold doRunNHWC2NCHW
  split
  · right
    exact ⟨rfl, by assumption⟩
  · by_cases h : s.cached_X_dims_ = X.dims
    · rw [if_pos h]
      split
      · left
        exact h
      · left
        exact h
    · rw [if_neg h]
      split
      · left
        rfl
      · split
        · left
          rfl
        · split
          · left
            rfl
          · left
            rfl

theorem doRun2_state_after {α : Type} (dt : CudnnDataType) (s : OpState) (X Y : Tensor α) :
    (doRunNCHW2NHWC dt s X Y).state.cached_X_dims_ = X.dims
    ∨ ((doRunNCHW2NHWC dt s X Y).state = s
        ∧ computeOutputShapeNCHW2NHWC X.dims = none) := by
  unfold doRunNCHW2NHWC
  split
  · right
    exact ⟨rfl, by assumption⟩
  · by_cases h : s.cached_X_dims_ = X.dims
    · rw [if_pos h]
      split
      · left
        exact h
      · left
        exact h
    · rw [if_neg h]
      split
      · left
        rfl
      · split
        · left
          rfl
        · split
          · left
            rfl
          · left
            rfl

theorem doRun1_state_compNone {α : Type} (dt : CudnnDataType) (s : OpState) (X Y : Tensor α)
    (h : computeOutputShapeNHWC2NCHW X.dims = none) :
    (doRunNHWC2NCHW dt s X Y).state = s := by
  unfold doRunNHWC2NCHW
  rw [h]

theorem doRun2_state_compNone {α : Type} (dt : CudnnDataType) (s : OpState) (X Y : Tensor α)
    (h : computeOutputShapeNCHW2NHWC X.dims = none) :
    (doRunNCHW2NHWC dt s X Y).state = s := by
  unfold doRunNCHW2NHWC
  rw [h]

theorem doRun1_no_unsupported {α : Type} (dt : CudnnDataType) (s : OpState) (X Y : Tensor α) :
    (doRunNHWC2NCHW dt s X Y).err ≠ some ConvErr.unsupportedTypeError := by
  unfold doRunNHWC2NCHW
  split
  · simp
  · by_cases h : s.cached_X_dims_ = X.dims
    · rw [if_pos h]
      split <;> simp
    · rw [if_neg h]
      split
      · simp
      · split
        · simp
        · split <;> simp

theorem doRun2_no_unsupported {α : Type} (dt : CudnnDataType) (s : OpState) (X Y : Tensor α) :
    (doRunNCHW2NHWC dt s X Y).err ≠ some ConvErr.unsupportedTypeError := by
  unfold doRunNCHW2NHWC
  split
  · simp
  · by_cases h : s.cached_X_dims_ = X.dims
    · rw [if_pos h]
      split <;> simp
    · rw [if_neg h]
      split
      · simp
      · split
        · simp
        · split <;> simp

theorem setDesc_rank2 (dt : CudnnDataType) (ord : StorageOrder) (d0 d1 : Nat) :
    setTensorDescriptor dt ord [d0, d1] = none := by
  cases ord <;> simp [setTensorDescriptor]

theorem doRun1_descFail {α : Type} (dt : CudnnDataType) (s : OpState) (X Y : Tensor α)
    (Y_dims : List Nat) (hmiss : s.cached_X_dims_ ≠ X.dims)
    (hcomp : computeOutputShapeNHWC2NCHW X.dims = some Y_dims)
    (hxd : setTensorDescriptor dt .NHWC X.dims = none) :
    doRunNHWC2NCHW dt s X Y
      = ⟨some .descriptorError, ⟨X.dims, s.X_desc_, s.Y_desc_⟩, ⟨Y_dims, Y.data⟩⟩ := by
  unfold doRunNHWC2NCHW
  rw [hcomp]
  dsimp only
  rw [if_neg hmiss, hxd]

theorem doRun2_descFail {α : Type} (dt : CudnnDataType) (s : OpState) (X Y : Tensor α)
    (Y_dims : List Nat) (hmiss : s.cached_X_dims_ ≠ X.dims)
    (hcomp : computeOutputShapeNCHW2NHWC X.dims = some Y_dims)
    (hxd : setTensorDescriptor dt .NCHW X.dims = none) :
    doRunNCHW2NHWC dt s X Y
      = ⟨some .descriptorError, ⟨X.dims, s.X_desc_, s.Y_desc_⟩, ⟨Y_dims, Y.data⟩⟩ := by
  unfold doRunNCHW2NHWC
  rw [hcomp]
  dsimp only
  rw [if_neg hmiss, hxd]

/-- Claim C1: for every dimension list of rank r ≥ 5 and either layout,
descriptor derivation produces a 5-axis descriptor with N = dims[0],
C = dims[1] (ChannelSecond) or dims[r-1] (ChannelLast), H and W from
positions 2,3 (ChannelSecond) or 1,2 (ChannelLast), D the product of the
remaining spatial extents (dims[4..r) resp. dims[3..r-1)), and in the
ChannelLast case strides stride(C)=1, stride(D)=C, stride(W)=D·C,
stride(H)=W·D·C, stride(N)=C·H·W·D.  The two conjuncts quantify over all
rank ≥ 5 lists in cons form (ChannelSecond) and concat form (ChannelLast,
exposing the last element as the channel). -/
theorem claim_C1 (dt : CudnnDataType) (a b c d e cl : Nat) (r' m' : List Nat) :
    setTensorDescriptor dt .NCHW (a :: b :: c :: d :: e :: r') =
      some (.descNd .NCHW dt [a, b, c, d, (e :: r').foldl (· * ·) 1]
        [b * c * d * ((e :: r').foldl (· * ·) 1), c * d * ((e :: r').foldl (· * ·) 1),
         d * ((e :: r').foldl (· * ·) 1), (e :: r').foldl (· * ·) 1, 1]) ∧
    setTensorDescriptor dt .NHWC (a :: b :: c :: ((e :: m') ++ [cl])) =
      some (.descNd .NHWC dt [a, cl, b, c, (e :: m').foldl (· * ·) 1]
        [cl * b * c * ((e :: m').foldl (· * ·) 1), 1,
         c * ((e :: m').foldl (· * ·) 1) * cl, ((e :: m').foldl (· * ·) 1) * cl, cl]) :=
  ⟨setDesc_rank5plus_NCHW dt a b c d e r', setDesc_rank5plus_NHWC dt a b c cl e m'⟩

/-- Claim C2: for every input of rank r ≥ 3 the output shape calculator
returns [dims[0], dims[r-1], dims[1], ..., dims[r-2]] for
ChannelLast→ChannelSecond and [dims[0], dims[2], ..., dims[r-1], dims[1]]
for ChannelSecond→ChannelLast; the batch extent stays at index 0 and the
spatial axes keep their relative order. -/
theorem claim_C2 (a b c cl : Nat) (m u : List Nat) :
    computeOutputShapeNHWC2NCHW (a :: ((b :: m) ++ [cl])) = some (a :: cl :: (b :: m)) ∧
    computeOutputShapeNCHW2NHWC (a :: b :: (c :: u)) = some (a :: ((c :: u) ++ [b])) :=
  ⟨comp1_concat a cl (b :: m), comp2_cons a b (c :: u)⟩

/-- Claim C3: for every input dimension list of rank ≥ 3 and both
directions, the computed output dimension list has the same length as the
input and the product of its extents is unchanged. -/
theorem claim_C3 (l : List Nat) (h : 3 ≤ l.length) :
    (∃ o, computeOutputShapeNHWC2NCHW l = some o
        ∧ o.length = l.length ∧ o.prod = l.prod) ∧
    (∃ o, computeOutputShapeNCHW2NHWC l = some o
        ∧ o.length = l.length ∧ o.prod = l.prod) := by
  rcases l with _ | ⟨a, t⟩
  · simp at h
  rcases List.eq_nil_or_concat t with rfl | ⟨m, cl, rfl⟩
  · simp at h
  simp only [List.concat_eq_append] at h ⊢
  constructor
  · exact ⟨a :: cl :: m, comp1_concat a cl m, by simp,
      by simp [List.prod_append]; exact Or.inl (by ring)⟩
  · rcases m with _ | ⟨b, m''⟩
    · simp at h
    exact ⟨a :: ((m'' ++ [cl]) ++ [b]), comp2_cons a b (m'' ++ [cl]), by simp,
      by simp [List.prod_append]; exact Or.inl (by ring)⟩

/-- Counterexample to claim C4: on the rank-2 input [7, 9] the conversion
does not fail with a RankError before any resize — the destination tensor
(initially of shape []) has already been resized to the computed output
shape [7, 9] when the run fails, and the failure is the out-of-bounds
dimension access inside descriptor derivation, not a rank validation. -/
theorem claim_C4_counterexample :
    (runNHWC2NCHW .float32 initState (⟨[7, 9], fun _ => 0⟩ : Tensor Nat)
        ⟨[], fun _ => 0⟩).err = some .descriptorError ∧
    (runNHWC2NCHW .float32 initState (⟨[7, 9], fun _ => 0⟩ : Tensor Nat)
        ⟨[], fun _ => 0⟩).err ≠ some .rankError ∧
    (⟨[], fun _ => (0 : Nat)⟩ : Tensor Nat).dims = [] ∧
    (runNHWC2NCHW .float32 initState (⟨[7, 9], fun _ => 0⟩ : Tensor Nat)
        ⟨[], fun _ => 0⟩).Y.dims = [7, 9] :=
  ⟨rfl, by decide, rfl, rfl⟩

/-- Claim C4 as amended: for every rank-2 input with a supported element
type and either direction, convert fails — but with the out-of-bounds
descriptor-derivation error rather than a RankError, and only after the
destination buffer has been resized to the computed output shape (the code
performs no rank validation). -/
theorem claim_C4_amended {α : Type} (et : ElementType) (dt : CudnnDataType)
    (hdt : cudnnTypeOf et = some dt) (d0 d1 : Nat) (X Y : Tensor α)
    (hX : X.dims = [d0, d1]) :
    ((runNHWC2NCHW et initState X Y).err = some .descriptorError ∧
     (runNHWC2NCHW et initState X Y).Y.dims = [d0, d1]) ∧
    ((runNCHW2NHWC et initState X Y).err = some .descriptorError ∧
     (runNCHW2NHWC et initState X Y).Y.dims = [d0, d1]) := by
  unfold runNHWC2NCHW runNCHW2NHWC
  rw [hdt]
  dsimp only
  have hmiss : initState.cached_X_dims_ ≠ X.dims := by
    rw [hX]
    simp [initState]
  have hcomp1 : computeOutputShapeNHWC2NCHW X.dims = some [d0, d1] := by
    rw [hX]
    exact comp1_concat d0 d1 []
  have hcomp2 : computeOutputShapeNCHW2NHWC X.dims = some [d0, d1] := by
    rw [hX]
    exact comp2_cons d0 d1 []
  have hxd1 : setTensorDescriptor dt .NHWC X.dims = none := by
    rw [hX]
    exact setDesc_rank2 dt .NHWC d0 d1
  have hxd2 : setTensorDescriptor dt .NCHW X.dims = none := by
    rw [hX]
    exact setDesc_rank2 dt .NCHW d0 d1
  rw [doRun1_descFail dt initState X Y [d0, d1] hmiss hcomp1 hxd1,
      doRun2_descFail dt initState X Y [d0, d1] hmiss hcomp2 hxd2]
  exact ⟨⟨rfl, rfl⟩, rfl, rfl⟩

/-- Witness for the amended C4 at input shape [7, 9]. -/
theorem claim_C4_amended_witness :
    ((runNHWC2NCHW .float32 initState (⟨[7, 9], fun _ => 0⟩ : Tensor Nat)
        ⟨[], fun _ => 0⟩).err = some .descriptorError ∧
     (runNHWC2NCHW .float32 initState (⟨[7, 9], fun _ => 0⟩ : Tensor Nat)
        ⟨[], fun _ => 0⟩).Y.dims = [7, 9]) ∧
    ((runNCHW2NHWC .float32 initState (⟨[7, 9], fun _ => 0⟩ : Tensor Nat)
        ⟨[], fun _ => 0⟩).err = some .descriptorError ∧
     (runNCHW2NHWC .float32 initState (⟨[7, 9], fun _ => 0⟩ : Tensor Nat)
        ⟨[], fun _ => 0⟩).Y.dims = [7, 9]) :=
  claim_C4_amended .float32 .FLOAT rfl 7 9 ⟨[7, 9], fun _ => 0⟩ ⟨[], fun _ => 0⟩ rfl

/-- Counterexample to claim C5: converting the rank-5 input
(N=2, C=4, D1=3, D2=5, D3=2) ChannelSecond→ChannelLast does produce output
shape (2, 3, 5, 2, 4), but the descriptors collapse only the spatial
extents beyond H = D1 and W = D2: the source descriptor extents are
[2, 4, 3, 5, 2] with D = D3 = 2, not D = D2·D3 = 10 as claimed. -/
theorem claim_C5_counterexample :
    (runNCHW2NHWC .float32 initState (⟨[2, 4, 3, 5, 2], fun _ => 0⟩ : Tensor Nat)
        ⟨[], fun _ => 0⟩).Y.dims = [2, 3, 5, 2, 4] ∧
    descExtents ((runNCHW2NHWC .float32 initState
        (⟨[2, 4, 3, 5, 2], fun _ => 0⟩ : Tensor Nat)
        ⟨[], fun _ => 0⟩).state.X_desc_) = some [2, 4, 3, 5, 2] ∧
    descExtents ((runNCHW2NHWC .float32 initState
        (⟨[2, 4, 3, 5, 2], fun _ => 0⟩ : Tensor Nat)
        ⟨[], fun _ => 0⟩).state.X_desc_) ≠ some [2, 4, 3, 5, 5 * 2] :=
  ⟨rfl, rfl, by decide⟩

/-- Claim C5 as amended: the rank-5 input (N=2, C=4, D1=3, D2=5, D3=2)
converted ChannelSecond→ChannelLast yields output shape (2, 3, 5, 2, 4),
and both descriptors use the synthetic collapsed spatial axis
D = D3 = 2 (the product of the spatial extents beyond H = D1, W = D2),
with extents (N, C, H, W, D) = (2, 4, 3, 5, 2). -/
theorem claim_C5_amended :
    (runNCHW2NHWC .float32 initState (⟨[2, 4, 3, 5, 2], fun _ => 0⟩ : Tensor Nat)
        ⟨[], fun _ => 0⟩).Y.dims = [2, 3, 5, 2, 4] ∧
    descExtents ((runNCHW2NHWC .float32 initState
        (⟨[2, 4, 3, 5, 2], fun _ => 0⟩ : Tensor Nat)
        ⟨[], fun _ => 0⟩).state.X_desc_) = some [2, 4, 3, 5, 2] ∧
    descExtents ((runNCHW2NHWC .float32 initState
        (⟨[2, 4, 3, 5, 2], fun _ => 0⟩ : Tensor Nat)
        ⟨[], fun _ => 0⟩).state.Y_desc_) = some [2, 4, 3, 5, 2] :=
  ⟨rfl, rfl, rfl⟩

/-- Claim C6: for every rank-3 input, descriptor derivation sets H = 1 and
W = dims[2] for ChannelSecond (W = dims[1] for ChannelLast), producing a
4-axis descriptor; in particular an input of shape (N, 3, 8) under
ChannelSecond→ChannelLast yields output shape (N, 8, 3). -/
theorem claim_C6 (dt : CudnnDataType) (a b c N : Nat) :
    setTensorDescriptor dt .NCHW [a, b, c] = some (.desc4d .NCHW dt a b 1 c) ∧
    setTensorDescriptor dt .NHWC [a, b, c] = some (.desc4d .NHWC dt a c 1 b) ∧
    computeOutputShapeNCHW2NHWC [N, 3, 8] = some [N, 8, 3] :=
  ⟨setDesc_rank3_NCHW dt a b c, setDesc_rank3_NHWC dt a b c, comp2_cons N 3 [8]⟩

/-- Claim C7: for every executor instance and input, a convert call whose
dimension list equals the cached one leaves the instance state unchanged
(cache hit is a no-op on state), and in particular a second call with the
same input right after any first call leaves the state exactly as the
first call left it. -/
theorem claim_C7 {α : Type} (dt dt' : CudnnDataType) (s : OpState) (X Y Y' : Tensor α) :
    (s.cached_X_dims_ = X.dims →
      (doRunNHWC2NCHW dt' s X Y').state = s ∧ (doRunNCHW2NHWC dt' s X Y').state = s) ∧
    (doRunNHWC2NCHW dt' (doRunNHWC2NCHW dt s X Y).state X Y').state
      = (doRunNHWC2NCHW dt s X Y).state ∧
    (doRunNCHW2NHWC dt' (doRunNCHW2NHWC dt s X Y).state X Y').state
      = (doRunNCHW2NHWC dt s X Y).state := by
  refine ⟨fun h => ⟨doRun1_state_hit dt' s X Y' h, doRun2_state_hit dt' s X Y' h⟩, ?_, ?_⟩
  · rcases doRun1_state_after dt s X Y with h | ⟨hs, hn⟩
    · exact doRun1_state_hit dt' _ X Y' h
    · rw [hs]
      exact doRun1_state_compNone dt' s X Y' hn
  · rcases doRun2_state_after dt s X Y with h | ⟨hs, hn⟩
    · exact doRun2_state_hit dt' _ X Y' h
    · rw [hs]
      exact doRun2_state_compNone dt' s X Y' hn

/-- Witness for C7: a second call on a state caching [2, 3, 4] is a no-op
on state, for both directions. -/
theorem claim_C7_witness :
    (doRunNHWC2NCHW .HALF (⟨[2, 3, 4], .uninit, .uninit⟩ : OpState)
        (⟨[2, 3, 4], fun _ => 0⟩ : Tensor Nat) ⟨[], fun _ => 0⟩).state
      = (⟨[2, 3, 4], .uninit, .uninit⟩ : OpState) ∧
    (doRunNCHW2NHWC .HALF (⟨[2, 3, 4], .uninit, .uninit⟩ : OpState)
        (⟨[2, 3, 4], fun _ => 0⟩ : Tensor Nat) ⟨[], fun _ => 0⟩).state
      = (⟨[2, 3, 4], .uninit, .uninit⟩ : OpState) :=
  (claim_C7 .FLOAT .HALF ⟨[2, 3, 4], .uninit, .uninit⟩ ⟨[2, 3, 4], fun _ => 0⟩
    ⟨[], fun _ => 0⟩ ⟨[], fun _ => 0⟩).1 rfl

/-- Claim C9: for every element type outside the supported set
{float32, float16}, convert fails with the unsupported-type error; for
element types in that set it never raises this error (in either
direction, from any state). -/
theorem claim_C9 {α : Type} (et : ElementType) (s : OpState) (X Y : Tensor α) :
    (supportedElementType et = false →
      (runNHWC2NCHW et s X Y).err = some .unsupportedTypeError ∧
      (runNCHW2NHWC et s X Y).err = some .unsupportedTypeError) ∧
    (supportedElementType et = true →
      (runNHWC2NCHW et s X Y).err ≠ some .unsupportedTypeError ∧
      (runNCHW2NHWC et s X Y).err ≠ some .unsupportedTypeError) := by
  constructor
  · intro h
    have hn : cudnnTypeOf et = none := by
      cases hc : cudnnTypeOf et with
      | none => rfl
      | some dt =>
        rw [supportedElementType, hc] at h
        cases h
    unfold runNHWC2NCHW runNCHW2NHWC
    rw [hn]
    exact ⟨rfl, rfl⟩
  · intro h
    obtain ⟨dt, hdt⟩ := Option.isSome_iff_exists.mp h
    unfold runNHWC2NCHW runNCHW2NHWC
    rw [hdt]
    exact ⟨doRun1_no_unsupported dt s X Y, doRun2_no_unsupported dt s X Y⟩

/-- Witness for C9 at the unsupported element type int32. -/
theorem claim_C9_witness :
    (runNHWC2NCHW .int32 initState (⟨[1, 2, 3], fun _ => 0⟩ : Tensor Nat)
        ⟨[], fun _ => 0⟩).err = some .unsupportedTypeError ∧
    (runNCHW2NHWC .int32 initState (⟨[1, 2, 3], fun _ => 0⟩ : Tensor Nat)
        ⟨[], fun _ => 0⟩).err = some .unsupportedTypeError :=
  (claim_C9 .int32 initState ⟨[1, 2, 3], fun _ => 0⟩ ⟨[], fun _ => 0⟩).1 rfl

/-- Claim C10: the descriptor cache is keyed solely on the input dimension
list, not on the element type: a call whose input dimension list equals
the cached one leaves both cached descriptors — including their
element-type tag — unchanged, whatever cuDNN data type the call itself
dispatches to. -/
theorem claim_C10 {α : Type} (dt2 : CudnnDataType) (s : OpState) (X Y : Tensor α)
    (hcache : s.cached_X_dims_ = X.dims) :
    ((doRunNHWC2NCHW dt2 s X Y).state.X_desc_ = s.X_desc_ ∧
     (doRunNHWC2NCHW dt2 s X Y).state.Y_desc_ = s.Y_desc_ ∧
     descDataType (doRunNHWC2NCHW dt2 s X Y).state.X_desc_ = descDataType s.X_desc_ ∧
     descDataType (doRunNHWC2NCHW dt2 s X Y).state.Y_desc_ = descDataType s.Y_desc_) ∧
    ((doRunNCHW2NHWC dt2 s X Y).state.X_desc_ = s.X_desc_ ∧
     (doRunNCHW2NHWC dt2 s X Y).state.Y_desc_ = s.Y_desc_ ∧
     descDataType (doRunNCHW2NHWC dt2 s X Y).state.X_desc_ = descDataType s.X_desc_ ∧
     descDataType (doRunNCHW2NHWC dt2 s X Y).state.Y_desc_ = descDataType s.Y_desc_) := by
  rw [doRun1_state_hit dt2 s X Y hcache, doRun2_state_hit dt2 s X Y hcache]
  exact ⟨⟨rfl, rfl, rfl, rfl⟩, rfl, rfl, rfl, rfl⟩

/-- Witness for C10: descriptors built with FLOAT stay tagged FLOAT after
a cache-hit call dispatched with HALF. -/
theorem claim_C10_witness :
    ((doRunNHWC2NCHW .HALF
        (⟨[2, 3, 4], .desc4d .NHWC .FLOAT 2 4 2 3, .desc4d .NCHW .FLOAT 2 4 2 3⟩ : OpState)
        (⟨[2, 3, 4], fun _ => 0⟩ : Tensor Nat) ⟨[], fun _ => 0⟩).state.X_desc_
        = TensorDescriptor.desc4d .NHWC .FLOAT 2 4 2 3 ∧
     (doRunNHWC2NCHW .HALF
        (⟨[2, 3, 4], .desc4d .NHWC .FLOAT 2 4 2 3, .desc4d .NCHW .FLOAT 2 4 2 3⟩ : OpState)
        (⟨[2, 3, 4], fun _ => 0⟩ : Tensor Nat) ⟨[], fun _ => 0⟩).state.Y_desc_
        = TensorDescriptor.desc4d .NCHW .FLOAT 2 4 2 3 ∧
     descDataType (doRunNHWC2NCHW .HALF
        (⟨[2, 3, 4], .desc4d .NHWC .FLOAT 2 4 2 3, .desc4d .NCHW .FLOAT 2 4 2 3⟩ : OpState)
        (⟨[2, 3, 4], fun _ => 0⟩ : Tensor Nat) ⟨[], fun _ => 0⟩).state.X_desc_
        = some .FLOAT ∧
     descDataType (doRunNHWC2NCHW .HALF
        (⟨[2, 3, 4], .desc4d .NHWC .FLOAT 2 4 2 3, .desc4d .NCHW .FLOAT 2 4 2 3⟩ : OpState)
        (⟨[2, 3, 4], fun _ => 0⟩ : Tensor Nat) ⟨[], fun _ => 0⟩).state.Y_desc_
        = some .FLOAT) ∧
    ((doRunNCHW2NHWC .HALF
        (⟨[2, 3, 4], .desc4d .NHWC .FLOAT 2 4 2 3, .desc4d .NCHW .FLOAT 2 4 2 3⟩ : OpState)
        (⟨[2, 3, 4], fun _ => 0⟩ : Tensor Nat) ⟨[], fun _ => 0⟩).state.X_desc_
        = TensorDescriptor.desc4d .NHWC .FLOAT 2 4 2 3 ∧
     (doRunNCHW2NHWC .HALF
        (⟨[2, 3, 4], .desc4d .NHWC .FLOAT 2 4 2 3, .desc4d .NCHW .FLOAT 2 4 2 3⟩ : OpState)
        (⟨[2, 3, 4], fun _ => 0⟩ : Tensor Nat) ⟨[], fun _ => 0⟩).state.Y_desc_
        = TensorDescriptor.desc4d .NCHW .FLOAT 2 4 2 3 ∧
     descDataType (doRunNCHW2NHWC .HALF
        (⟨[2, 3, 4], .desc4d .NHWC .FLOAT 2 4 2 3, .desc4d .NCHW .FLOAT 2 4 2 3⟩ : OpState)
        (⟨[2, 3, 4], fun _ => 0⟩ : Tensor Nat) ⟨[], fun _ => 0⟩).state.X_desc_
        = some .FLOAT ∧
     descDataType (doRunNCHW2NHWC .HALF
        (⟨[2, 3, 4], .desc4d .NHWC .FLOAT 2 4 2 3, .desc4d .NCHW .FLOAT 2 4 2 3⟩ : OpState)
        (⟨[2, 3, 4], fun _ => 0⟩ : Tensor Nat) ⟨[], fun _ => 0⟩).state.Y_desc_
        = some .FLOAT) :=
  claim_C10 .HALF
    ⟨[2, 3, 4], .desc4d .NHWC .FLOAT 2 4 2 3, .desc4d .NCHW .FLOAT 2 4 2 3⟩
    ⟨[2, 3, 4], fun _ => 0⟩ ⟨[], fun _ => 0⟩ rfl

/-- Witness for C3 at the input shape [2, 3, 4]. -/
theorem claim_C3_witness :
    (∃ o, computeOutputShapeNHWC2NCHW [2, 3, 4] = some o
        ∧ o.length = ([2, 3, 4] : List Nat).length
        ∧ o.prod = ([2, 3, 4] : List Nat).prod) ∧
    (∃ o, computeOutputShapeNCHW2NHWC [2, 3, 4] = some o
        ∧ o.length = ([2, 3, 4] : List Nat).length
        ∧ o.prod = ([2, 3, 4] : List Nat).prod) :=
  claim_C3 [2, 3, 4] (by decide)

end Caffe2
